import Mathlib

/-!
Shallow embedding of `txt_to_jsonl/cli_doctxt.py`, a tool that extracts
`<doc ...> ... </doc>` blocks from text files and writes them out as
sharded JSONL records.

Strings are modelled as `List Char`.  Python's file line iteration,
`re.search` with the pattern `title="(.*?)"`, slicing, `str.strip`,
`json.dumps` (with `ensure_ascii=False`) and the sharded writer are
embedded as executable Lean functions.  File-system inputs (the lines of
a file, a file's stem, the enumeration produced by `os.walk`/`iterdir`)
are passed as explicit arguments.
-/

namespace CleanData

/-- Python substring test `pat in line`. -/
def containsSub (l pat : List Char) : Bool :=
  (List.range (l.length + 1)).any (fun i => pat.isPrefixOf (l.drop i))

/-- The opening-tag marker searched for by `iter_doc_blocks`. -/
def openMarker : List Char := "<doc".data

/-- The closing-tag marker searched for by `iter_doc_blocks`. -/
def closeMarker : List Char := "</doc>".data

/-- Lazy capture for `(.*?)"`: consume characters until the first `"`.
It fails at end of input or at a newline, since regex `.` (no DOTALL)
does not match a newline. -/
def scanCapture : List Char → Option (List Char)
  | [] => none
  | c :: rest =>
    if c = '"' then some []
    else if c = '\n' then none
    else (scanCapture rest).map (fun t => c :: t)

/-- Leftmost-match search for the pattern of `DOC_TITLE_RE`, namely
`title="(.*?)"`: try each start position from the left; where the literal
`title="` is a prefix, attempt the lazy capture; on failure advance one
character, exactly as `re.search` does. -/
def findTitleMatch : List Char → Option (List Char)
  | [] => none
  | c :: rest =>
    if ("title=\"".data).isPrefixOf (c :: rest) then
      match scanCapture ((c :: rest).drop 7) with
      | some t => some t
      | none => findTitleMatch rest
    else findTitleMatch rest

/-- Embeds `extract_title_from_opening_tag`: `DOC_TITLE_RE.search(line)`,
returning the first capture group when the pattern matches. -/
def extract_title_from_opening_tag (line : List Char) : Option (List Char) :=
  findTitleMatch line

/-- A Block as yielded by `iter_doc_blocks`: the optional title captured
from the opening tag, and the joined buffered content lines. -/
abbrev Block := Option (List Char) × List Char

/-- The two-state scanner loop of `iter_doc_blocks` over the remaining
lines.  The first argument is the `inside` flag, then the accumulation
`buffer` and the pending `title_in_tag`.  Outside a block, a line
containing `<doc` clears the buffer, captures the title and enters the
block; nothing else on that line is inspected.  Inside a block, a line
containing `</doc>` emits `(title, "".join(buffer))` and leaves the
block; any other line is appended to the buffer verbatim. -/
def iterAux : Bool → List (List Char) → Option (List Char) → List (List Char) → List Block
  | _, _, _, [] => []
  | false, buf, t, line :: rest =>
    if containsSub line openMarker then
      iterAux true [] (extract_title_from_opening_tag line) rest
    else
      iterAux false buf t rest
  | true, buf, t, line :: rest =>
    if containsSub line closeMarker then
      (t, buf.flatten) :: iterAux false [] none rest
    else
      iterAux true (buf ++ [line]) t rest

/-- Embeds `iter_doc_blocks`, at the level of the file's lines (the
`for line in f` iteration is modelled by `splitLinesKeepEnds` below). -/
def iter_doc_blocks (lines : List (List Char)) : List Block :=
  iterAux false [] none lines

/-- Helper for `splitLinesKeepEnds`: `acc` holds the current line read so
far, in reverse. -/
def splitLinesAux (acc : List Char) : List Char → List (List Char)
  | [] => if acc = [] then [] else [acc.reverse]
  | c :: rest =>
    if c = '\n' then (acc.reverse ++ ['\n']) :: splitLinesAux [] rest
    else splitLinesAux (c :: acc) rest

/-- Python text-file line iteration `for line in f`: the text is split
after each newline, each line keeping its terminator; a final fragment
with no newline is still a line. -/
def splitLinesKeepEnds (text : List Char) : List (List Char) :=
  splitLinesAux [] text

/-- Embeds `read_first_n_chars`: empty for a non-positive limit,
otherwise the slice `text[:limit]`. -/
def read_first_n_chars (text : List Char) (limit : Int) : List Char :=
  if limit ≤ 0 then [] else text.take limit.toNat

/-- Python `str.isspace()`, the character class stripped by
`str.strip()`: the ASCII whitespace U+0009..U+000D and space, the
control separators U+001C..U+001F, NEL (U+0085), and the Unicode
separators of categories Zs (U+00A0, U+1680, U+2000..U+200A, U+202F,
U+205F, U+3000), Zl (U+2028) and Zp (U+2029). -/
def pyIsSpace (c : Char) : Bool :=
  decide ((9 ≤ c.toNat ∧ c.toNat ≤ 13) ∨ (28 ≤ c.toNat ∧ c.toNat ≤ 31) ∨
    c.toNat = 32 ∨ c.toNat = 133 ∨ c.toNat = 160 ∨ c.toNat = 5760 ∨
    (8192 ≤ c.toNat ∧ c.toNat ≤ 8202) ∨ c.toNat = 8232 ∨ c.toNat = 8233 ∨
    c.toNat = 8239 ∨ c.toNat = 8287 ∨ c.toNat = 12288)

/-- Python `s.strip()`: drop whitespace from both ends. -/
def pyStrip (l : List Char) : List Char :=
  ((l.dropWhile pyIsSpace).reverse.dropWhile pyIsSpace).reverse

/-- Title resolution of `generate_records_for_file` (lines 174-178):
`raw_title = (title_in_tag or "").strip()`, falling back to the source
file's stem (its base name without extension, passed here as an explicit
argument) when that is empty. -/
def resolve_title (title_in_tag : Option (List Char)) (stem : List Char) : List Char :=
  let raw := pyStrip (title_in_tag.getD [])
  if raw = [] then stem else raw

/-- An output record: the `title` and `summary` fields of the emitted
JSON object. -/
structure Record where
  title : List Char
  summary : List Char
deriving DecidableEq

/-- The per-block body of `generate_records_for_file`: resolve the title,
truncate it to `title_max_chars` when that limit is positive, and take
the first `summary_chars` characters of the content as the summary. -/
def buildRecord (stem : List Char) (summary_chars title_max_chars : Int) (b : Block) :
    Record :=
  let raw := resolve_title b.1 stem
  { title := if 0 < title_max_chars then raw.take title_max_chars.toNat else raw
    summary := read_first_n_chars b.2 summary_chars }

/-- Embeds `generate_records_for_file` over the lines of the file; the
file's stem is passed explicitly. -/
def generate_records_for_file (lines : List (List Char)) (stem : List Char)
    (summary_chars title_max_chars : Int) : List Record :=
  (iter_doc_blocks lines).map (buildRecord stem summary_chars title_max_chars)

/-- The whole per-file pipeline on the raw text of the file. -/
def pipeline_records (text : List Char) (stem : List Char)
    (summary_chars title_max_chars : Int) : List Record :=
  generate_records_for_file (splitLinesKeepEnds text) stem summary_chars title_max_chars

/-- A hexadecimal digit, lower case, as produced by `json.dumps` for
`\u00XX` escapes. -/
def hexDigitChar (n : Nat) : Char :=
  if n < 10 then Char.ofNat (48 + n) else Char.ofNat (87 + n)

/-- Per-character escaping of `json.dumps` with `ensure_ascii=False`:
quote, backslash and the named control escapes, `\u00XX` for the other
control characters, every other character literal. -/
def jsonEscapeChar (c : Char) : List Char :=
  if c = '"' then ['\\', '"']
  else if c = '\\' then ['\\', '\\']
  else if c = '\n' then ['\\', 'n']
  else if c = '\r' then ['\\', 'r']
  else if c = '\t' then ['\\', 't']
  else if c = Char.ofNat 8 then ['\\', 'b']
  else if c = Char.ofNat 12 then ['\\', 'f']
  else if c.toNat < 32 then
    ['\\', 'u', '0', '0', hexDigitChar (c.toNat / 16), hexDigitChar (c.toNat % 16)]
  else [c]

/-- A JSON string literal for `json.dumps` with `ensure_ascii=False`. -/
def jsonStringLit (s : List Char) : List Char :=
  '"' :: (s.flatMap jsonEscapeChar) ++ ['"']

/-- The JSON line `json.dumps({"title": ..., "summary": ...},
ensure_ascii=False)` for one record (default separators, field order
`title` then `summary`). -/
def jsonDumpRecord (r : Record) : List Char :=
  "\x7b\"title\": ".data ++ jsonStringLit r.title ++
    ", \"summary\": ".data ++ jsonStringLit r.summary ++ "\x7d".data

/-- The JSON lines the pipeline emits for one file. -/
def pipeline_json_lines (text : List Char) (stem : List Char)
    (summary_chars title_max_chars : Int) : List (List Char) :=
  (pipeline_records text stem summary_chars title_max_chars).map jsonDumpRecord

variable {α : Type}

/-- The writer loop of `write_sharded_jsonl`: `idx` is the current shard
number, `cur` the records written to the open shard so far, `cnt` the
source's `record_in_shard` counter.  Before writing a record, when the
maximum is positive and the counter has reached it, the current shard is
closed and the next-numbered shard opened.  The final shard is closed at
the end.  The result lists every shard with its number and contents. -/
def writeShardsAux (maxPer : Int) : Nat → List α → Nat → List α → List (Nat × List α)
  | idx, cur, _, [] => [(idx, cur)]
  | idx, cur, cnt, r :: rest =>
    if 0 < maxPer ∧ maxPer ≤ (cnt : Int) then
      (idx, cur) :: writeShardsAux maxPer (idx + 1) [r] 1 rest
    else
      writeShardsAux maxPer idx (cur ++ [r]) (cnt + 1) rest

/-- Embeds `write_sharded_jsonl`: shard 1 is opened eagerly before any
record is consumed, then the records are streamed through the rotation
loop.  The result is the list of shard files (number, contents) produced
on disk. -/
def write_sharded_jsonl (records : List α) (max_records_per_file : Int) :
    List (Nat × List α) :=
  writeShardsAux max_records_per_file 1 [] 0 records

/-- The observable state of `write_sharded_jsonl` while running: the
closed shard files on disk, the open shard handle (with its number and
the records already written through it), and the `record_in_shard`
counter. -/
structure WriterState (α : Type) where
  disk : List (Nat × List α)
  openShard : Option (Nat × List α)
  cnt : Nat
deriving DecidableEq

/-- One iteration of the `for rec in records` loop of
`write_sharded_jsonl`, acting on the writer state. -/
def writerStep (maxPer : Int) (st : WriterState α) (r : α) : WriterState α :=
  match st.openShard with
  | none => st
  | some (idx, cur) =>
    if 0 < maxPer ∧ maxPer ≤ (st.cnt : Int) then
      { disk := st.disk ++ [(idx, cur)], openShard := some (idx + 1, [r]), cnt := 1 }
    else
      { disk := st.disk, openShard := some (idx, cur ++ [r]), cnt := st.cnt + 1 }

/-- The `finally` clause of `write_sharded_jsonl`: when the handle is
still open, close it (its contents become a file on disk). -/
def writerFinally (st : WriterState α) : WriterState α :=
  match st.openShard with
  | none => st
  | some s => { disk := st.disk ++ [s], openShard := none, cnt := st.cnt }

/-- A run of `write_sharded_jsonl` in which the record-producing sequence
yields `records` and then either finishes (`raises = false`) or raises
(`raises = true`).  Either way control leaves the `try` body after the
fold and the `finally` clause runs; an exception is re-raised afterwards
(the returned flag). -/
def write_sharded_run (records : List α) (raises : Bool) (maxPer : Int) :
    WriterState α × Bool :=
  let body := records.foldl (writerStep maxPer) ⟨[], some (1, []), 0⟩
  (writerFinally body, raises)

/-- Embeds `collect_files` (directory mode): `enumerated` is the sequence
of path strings produced by walking the input directories in
file-system enumeration order, `matchesPat` is the `fnmatch` test
against the glob pattern.  The source filters, deduplicates with `set`
and sorts; paths compare as strings. -/
def collect_files (enumerated : List String) (matchesPat : String → Bool) : List String :=
  List.insertionSort (· ≤ ·) (enumerated.filter matchesPat).dedup

/-- The end-to-end example input of the spec, taken verbatim: the two
blocks are each written on a single line. -/
def exampleTextC1 : List Char :=
  ("<doc title=\"Cat\">Cats are small.</doc>\n" ++
    "<doc>No title here, more than twenty characters of text.</doc>\n").data

/-- The end-to-end example input with each block spread over separate
opening, content and closing lines, as the line-based scanner requires. -/
def exampleTextC1Amended : List Char :=
  ("<doc title=\"Cat\">\nCats are small.\n</doc>\n" ++
    "<doc>\nNo title here, more than twenty characters of text.\n</doc>\n").data

/-! Helper lemmas shared by the claim theorems. -/

/-- Inside a block, a run of lines without the closing marker followed by
a closing line emits exactly one block, whose content is the joined
buffer plus those lines. -/
theorem iterAux_inside_run (closeL : List Char) (hc : containsSub closeL closeMarker = true) :
    ∀ (mids buf : List (List Char)) (t : Option (List Char)),
      (∀ m ∈ mids, containsSub m closeMarker = false) →
      iterAux true buf t (mids ++ [closeL]) = [(t, (buf ++ mids).flatten)] := by
  intro mids
  induction mids with
  | nil =>
    intro buf t _
    simp [iterAux, hc]
  | cons m ms ih =>
    intro buf t h
    have hm : containsSub m closeMarker = false := h m (by simp)
    have step : iterAux true buf t ((m :: ms) ++ [closeL])
        = iterAux true (buf ++ [m]) t (ms ++ [closeL]) := by
      simp [iterAux, hm]
    rw [step, ih (buf ++ [m]) t (fun x hx => h x (by simp [hx]))]
    simp

/-- The writer loop always reports at least one shard. -/
theorem writeShardsAux_ne_nil (maxPer : Int) :
    ∀ (recs : List α) (idx : Nat) (cur : List α) (cnt : Nat),
      writeShardsAux maxPer idx cur cnt recs ≠ [] := by
  intro recs
  induction recs with
  | nil => intro idx cur cnt; simp [writeShardsAux]
  | cons r rest ih =>
    intro idx cur cnt
    by_cases h : 0 < maxPer ∧ maxPer ≤ (cnt : Int)
    · simp [writeShardsAux, h]
    · simp [writeShardsAux, h, ih]

/-- With a positive maximum, every shard the writer closes by rotation is
exactly full: only the final shard can be short. -/
theorem writeShardsAux_closed_full (maxPer : Int) (hm : 0 < maxPer) :
    ∀ (recs : List α) (idx : Nat) (cur : List α),
      cur.length ≤ maxPer.toNat →
      ∀ s ∈ (writeShardsAux maxPer idx cur cur.length recs).dropLast,
        s.2.length = maxPer.toNat := by
  intro recs
  induction recs with
  | nil =>
    intro idx cur _
    simp [writeShardsAux]
  | cons r rest ih =>
    intro idx cur hcur s hs
    by_cases h : 0 < maxPer ∧ maxPer ≤ ((cur.length : Nat) : Int)
    · have hfull : cur.length = maxPer.toNat := by
        rcases h with ⟨h1, h2⟩
        omega
      have hrec : writeShardsAux maxPer idx cur cur.length (r :: rest)
          = (idx, cur) :: writeShardsAux maxPer (idx + 1) [r] 1 rest := by
        simp [writeShardsAux, h]
      rw [hrec, List.dropLast_cons_of_ne_nil (writeShardsAux_ne_nil maxPer rest (idx + 1) [r] 1)]
        at hs
      rcases List.mem_cons.1 hs with hs | hs
      · rw [hs]
        exact hfull
      · have hle : ([r] : List α).length ≤ maxPer.toNat := by
          simp only [List.length_singleton]
          omega
        have := ih (idx + 1) [r] hle s
        simp only [List.length_singleton] at this
        exact this hs
    · have hrec : writeShardsAux maxPer idx cur cur.length (r :: rest)
          = writeShardsAux maxPer idx (cur ++ [r]) (cur.length + 1) rest := by
        simp [writeShardsAux, h]
      have hlen : cur.length + 1 = (cur ++ [r]).length := by simp
      have hle : (cur ++ [r]).length ≤ maxPer.toNat := by
        simp only [List.length_append, List.length_singleton]
        omega
      rw [hrec, hlen] at hs
      exact ih idx (cur ++ [r]) hle s hs

/-- The shards written by the writer loop carry every record, in order,
after the records already in the open shard. -/
theorem writeShardsAux_flatten (maxPer : Int) :
    ∀ (recs : List α) (idx : Nat) (cur : List α) (cnt : Nat),
      ((writeShardsAux maxPer idx cur cnt recs).map Prod.snd).flatten = cur ++ recs := by
  intro recs
  induction recs with
  | nil => intro idx cur cnt; simp [writeShardsAux]
  | cons r rest ih =>
    intro idx cur cnt
    by_cases h : 0 < maxPer ∧ maxPer ≤ (cnt : Int)
    · simp [writeShardsAux, h, ih]
    · simp [writeShardsAux, h, ih]

/-- Running the loop of `write_sharded_jsonl` from an open shard and then
executing the `finally` clause puts exactly the loop's shards on disk and
leaves no open handle. -/
theorem writer_run_eq (maxPer : Int) :
    ∀ (recs : List α) (disk : List (Nat × List α)) (idx : Nat) (cur : List α) (cnt : Nat),
      (writerFinally (recs.foldl (writerStep maxPer) ⟨disk, some (idx, cur), cnt⟩)).disk
          = disk ++ writeShardsAux maxPer idx cur cnt recs ∧
        (writerFinally (recs.foldl (writerStep maxPer) ⟨disk, some (idx, cur), cnt⟩)).openShard
          = none := by
  intro recs
  induction recs with
  | nil =>
    intro disk idx cur cnt
    simp [writerFinally, writeShardsAux]
  | cons r rest ih =>
    intro disk idx cur cnt
    by_cases h : 0 < maxPer ∧ maxPer ≤ (cnt : Int)
    · have step : writerStep maxPer ⟨disk, some (idx, cur), cnt⟩ r
          = ⟨disk ++ [(idx, cur)], some (idx + 1, [r]), 1⟩ := by
        simp [writerStep, h]
      rw [List.foldl_cons, step]
      rcases ih (disk ++ [(idx, cur)]) (idx + 1) [r] 1 with ⟨h1, h2⟩
      refine ⟨?_, h2⟩
      rw [h1]
      simp [writeShardsAux, h]
    · have step : writerStep maxPer ⟨disk, some (idx, cur), cnt⟩ r
          = ⟨disk, some (idx, cur ++ [r]), cnt + 1⟩ := by
        simp [writerStep, h]
      rw [List.foldl_cons, step]
      rcases ih disk idx (cur ++ [r]) (cnt + 1) with ⟨h1, h2⟩
      refine ⟨?_, h2⟩
      rw [h1]
      simp [writeShardsAux, h]

/-! The claim theorems. -/

/-- C1 (counterexample): on the spec's end-to-end example input as
written — each block on a single line — the pipeline (with
summary_chars = 10, title_max_chars = 5 and the file stem fallback)
emits exactly one JSON line, with the first block's title and an empty
summary, and not the two lines the claim states.  The opening line's
remainder is never scanned, so the scanner is still inside a block at
the second line and closes it there with an empty buffer. -/
theorem end_to_end_example_C1_counterexample :
    pipeline_json_lines exampleTextC1 "Document".data 10 5 =
        ["\x7b\"title\": \"Cat\", \"summary\": \"\"\x7d".data] ∧
      pipeline_json_lines exampleTextC1 "Document".data 10 5 ≠
        ["\x7b\"title\": \"Cat\", \"summary\": \"Cats are s\"\x7d".data,
          "\x7b\"title\": \"Docum\", \"summary\": \"No title h\"\x7d".data] := by
  constructor
  · decide
  · decide

/-- C1 (amended): with each block's opening marker, content and closing
marker on separate lines, and a source file whose stem is `Document`
(the code's only title fallback), the pipeline with summary_chars = 10
and title_max_chars = 5 emits exactly the two JSON lines
`{"title": "Cat", "summary": "Cats are s"}` and
`{"title": "Docum", "summary": "No title h"}`. -/
theorem end_to_end_example_C1 :
    pipeline_json_lines exampleTextC1Amended "Document".data 10 5 =
      ["\x7b\"title\": \"Cat\", \"summary\": \"Cats are s\"\x7d".data,
        "\x7b\"title\": \"Docum\", \"summary\": \"No title h\"\x7d".data] := by
  decide

/-- C2: for every block whose title attribute is absent or strips to the
empty string, the resolved title equals the fallback the code applies —
the source file's stem — and, the stem of a real file being non-empty,
the resolved title is never empty. -/
theorem fallback_title_C2 :
    ∀ (t : Option (List Char)) (stem : List Char),
      (t = none ∨ pyStrip (t.getD []) = []) → stem ≠ [] →
        resolve_title t stem = stem ∧ resolve_title t stem ≠ [] := by
  intro t stem h hstem
  have hr : pyStrip (t.getD []) = [] := by
    rcases h with h | h
    · subst h; rfl
    · exact h
  refine ⟨?_, ?_⟩
  · simp [resolve_title, hr]
  · simp [resolve_title, hr]
    exact hstem

/-- Witness for C2 at a title made of a no-break space, an ASCII space
and a line separator — all stripped by `str.strip()` — and stem
`Document`. -/
theorem fallback_title_C2_witness :
    resolve_title (some [Char.ofNat 160, ' ', Char.ofNat 8232]) "Document".data
        = "Document".data ∧
      resolve_title (some [Char.ofNat 160, ' ', Char.ofNat 8232]) "Document".data ≠ [] :=
  fallback_title_C2 (some [Char.ofNat 160, ' ', Char.ofNat 8232]) "Document".data
    (Or.inr (by decide)) (by decide)

/-- C3: a well-formed input made of one opening line carrying a
`title="..."` attribute, content lines free of the closing marker, and a
closing line, yields exactly one block whose title is the captured
attribute value. -/
theorem single_block_title_C3 :
    ∀ (openL closeL : List Char) (mids : List (List Char)) (v : List Char),
      containsSub openL openMarker = true →
      extract_title_from_opening_tag openL = some v →
      (∀ m ∈ mids, containsSub m closeMarker = false) →
      containsSub closeL closeMarker = true →
      iter_doc_blocks ([openL] ++ mids ++ [closeL]) = [(some v, mids.flatten)] := by
  intro openL closeL mids v ho ht hm hc
  have h1 : iter_doc_blocks ([openL] ++ mids ++ [closeL])
      = iterAux true [] (some v) (mids ++ [closeL]) := by
    simp [iter_doc_blocks, iterAux, ho, ht]
  rw [h1, iterAux_inside_run closeL hc mids [] (some v) hm]
  simp

/-- Witness for C3 on a three-line single-block file. -/
theorem single_block_title_C3_witness :
    iter_doc_blocks
        (["<doc title=\"Cat\">\n".data] ++ ["Cats are small.\n".data] ++ ["</doc>\n".data]) =
      [(some "Cat".data, (["Cats are small.\n".data]).flatten)] :=
  single_block_title_C3 "<doc title=\"Cat\">\n".data "</doc>\n".data
    ["Cats are small.\n".data] "Cat".data (by decide) (by decide) (by decide) (by decide)

/-- C4: when the input ends while the scanner is inside a block — no
remaining line contains the closing marker — no block is emitted for the
buffered content; in particular a file whose opening marker is never
followed by a closing line yields nothing. -/
theorem eof_drops_open_block_C4 :
    (∀ (rest buf : List (List Char)) (t : Option (List Char)),
        (∀ l ∈ rest, containsSub l closeMarker = false) →
        iterAux true buf t rest = []) ∧
      ∀ (openL : List Char) (rest : List (List Char)),
        containsSub openL openMarker = true →
        (∀ l ∈ rest, containsSub l closeMarker = false) →
        iter_doc_blocks (openL :: rest) = [] := by
  have key : ∀ (rest buf : List (List Char)) (t : Option (List Char)),
      (∀ l ∈ rest, containsSub l closeMarker = false) →
      iterAux true buf t rest = [] := by
    intro rest
    induction rest with
    | nil => intro buf t _; rfl
    | cons l ls ih =>
      intro buf t h
      have hl : containsSub l closeMarker = false := h l (by simp)
      have step : iterAux true buf t (l :: ls) = iterAux true (buf ++ [l]) t ls := by
        simp [iterAux, hl]
      rw [step]
      exact ih (buf ++ [l]) t (fun x hx => h x (by simp [hx]))
  refine ⟨key, ?_⟩
  intro openL rest ho h
  have step : iter_doc_blocks (openL :: rest)
      = iterAux true [] (extract_title_from_opening_tag openL) rest := by
    simp [iter_doc_blocks, iterAux, ho]
  rw [step]
  exact key rest [] _ h

/-- Witness for C4 on a file truncated after its opening marker. -/
theorem eof_drops_open_block_C4_witness :
    iter_doc_blocks ["<doc title=\"X\">\n".data, "dangling content\n".data] = [] :=
  eof_drops_open_block_C4.2 "<doc title=\"X\">\n".data ["dangling content\n".data]
    (by decide) (by decide)

/-- C5: with max_records_per_file = 2 the writer splits 5 records into
shards 1, 2, 3 holding 2, 2 and 1 records; and in general, for any
positive maximum, every shard except the last holds exactly the maximum,
so rotation happens only once the current shard is full. -/
theorem shard_rotation_C5 :
    write_sharded_jsonl [1, 2, 3, 4, 5] (2 : Int) = [(1, [1, 2]), (2, [3, 4]), (3, [5])] ∧
      ∀ (maxPer : Int), 0 < maxPer → ∀ (recs : List Nat),
        ∀ s ∈ (write_sharded_jsonl recs maxPer).dropLast, s.2.length = maxPer.toNat := by
  refine ⟨by decide, ?_⟩
  intro maxPer hmax recs s hs
  exact writeShardsAux_closed_full maxPer hmax recs 1 [] (Nat.zero_le _) s hs

/-- Witness for C5: the first shard of a 3-record run at maximum 2 is
full. -/
theorem shard_rotation_C5_witness :
    ((1, [1, 2]) : Nat × List Nat).2.length = (2 : Int).toNat :=
  shard_rotation_C5.2 2 (by decide) [1, 2, 3] (1, [1, 2]) (by decide)

/-- C6: every emitted record comes from a block; its summary is the
block content's first summary_chars characters when that limit is
positive (hence bounded by the limit and a prefix of the content) and
empty when the limit is non-positive; its title length is bounded by a
positive title_max_chars, while a non-positive title_max_chars leaves
the resolved title untruncated. -/
theorem record_limits_C6 :
    ∀ (lines : List (List Char)) (stem : List Char) (summary_chars title_max_chars : Int)
      (r : Record),
      r ∈ generate_records_for_file lines stem summary_chars title_max_chars →
      ∃ b ∈ iter_doc_blocks lines,
        r = buildRecord stem summary_chars title_max_chars b ∧
          (0 < summary_chars →
            r.summary = b.2.take summary_chars.toNat ∧
              r.summary.length ≤ summary_chars.toNat ∧ ∃ t, r.summary ++ t = b.2) ∧
          (summary_chars ≤ 0 → r.summary = []) ∧
          (0 < title_max_chars → r.title.length ≤ title_max_chars.toNat) ∧
          (title_max_chars ≤ 0 → r.title = resolve_title b.1 stem) := by
  intro lines stem sc tc r hr
  rw [generate_records_for_file, List.mem_map] at hr
  obtain ⟨b, hb, hrb⟩ := hr
  refine ⟨b, hb, hrb.symm, ?_, ?_, ?_, ?_⟩
  · intro hsc
    have hne : ¬ sc ≤ 0 := by omega
    have hsum : r.summary = b.2.take sc.toNat := by
      rw [← hrb]
      simp [buildRecord, read_first_n_chars, hne]
    refine ⟨hsum, ?_, ?_⟩
    · rw [hsum, List.length_take]
      omega
    · exact ⟨b.2.drop sc.toNat, by rw [hsum, List.take_append_drop]⟩
  · intro hsc
    rw [← hrb]
    simp [buildRecord, read_first_n_chars, hsc]
  · intro htc
    have hti : r.title = (resolve_title b.1 stem).take tc.toNat := by
      rw [← hrb]
      simp [buildRecord, htc]
    rw [hti, List.length_take]
    omega
  · intro htc
    have hne : ¬ 0 < tc := by omega
    rw [← hrb]
    simp [buildRecord, hne]

/-- Witness for C6 on a one-block file with summary_chars = 3 and
title_max_chars = 2. -/
theorem record_limits_C6_witness :
    ∃ b ∈ iter_doc_blocks ["<doc title=\"Tt\">\n".data, "abcdef\n".data, "</doc>\n".data],
      (⟨"Tt".data, "abc".data⟩ : Record) = buildRecord "f".data 3 2 b ∧
        (0 < (3 : Int) →
          (⟨"Tt".data, "abc".data⟩ : Record).summary = b.2.take (3 : Int).toNat ∧
            (⟨"Tt".data, "abc".data⟩ : Record).summary.length ≤ (3 : Int).toNat ∧
              ∃ t, (⟨"Tt".data, "abc".data⟩ : Record).summary ++ t = b.2) ∧
        ((3 : Int) ≤ 0 → (⟨"Tt".data, "abc".data⟩ : Record).summary = []) ∧
        (0 < (2 : Int) → (⟨"Tt".data, "abc".data⟩ : Record).title.length ≤ (2 : Int).toNat) ∧
        ((2 : Int) ≤ 0 →
          (⟨"Tt".data, "abc".data⟩ : Record).title = resolve_title b.1 "f".data) :=
  record_limits_C6 ["<doc title=\"Tt\">\n".data, "abcdef\n".data, "</doc>\n".data]
    "f".data 3 2 ⟨"Tt".data, "abc".data⟩ (by decide)

/-- C7: shard 1 is opened before any record is consumed, so the empty
record sequence still produces exactly one shard file, numbered 1, with
no records in it. -/
theorem empty_input_single_shard_C7 :
    ∀ (maxPer : Int), write_sharded_jsonl ([] : List Record) maxPer = [(1, [])] := by
  intro maxPer
  rfl

/-- C8: however a run of the writer ends — the record sequence finishing
normally or raising partway — the `finally` clause leaves no open shard
handle, the disk holds exactly the shards of the records produced before
the exit (so nothing written is rolled back), and the only error effect
is the propagated exception flag. -/
theorem writer_closes_handle_C8 :
    ∀ (records : List Record) (raises : Bool) (maxPer : Int),
      (write_sharded_run records raises maxPer).1.openShard = none ∧
        (write_sharded_run records raises maxPer).1.disk
            = write_sharded_jsonl records maxPer ∧
          ((write_sharded_run records raises maxPer).1.disk.map Prod.snd).flatten = records ∧
            (write_sharded_run records raises maxPer).2 = raises := by
  intro records raises maxPer
  rcases writer_run_eq maxPer records [] 1 [] 0 with ⟨h1, h2⟩
  have hd : (write_sharded_run records raises maxPer).1.disk
      = writeShardsAux maxPer 1 [] 0 records := by
    simpa [write_sharded_run] using h1
  have ho : (write_sharded_run records raises maxPer).1.openShard = none := by
    simpa [write_sharded_run] using h2
  refine ⟨ho, ?_, ?_, rfl⟩
  · rw [hd]
    rfl
  · rw [hd]
    simpa using writeShardsAux_flatten maxPer records 1 [] 0

/-- C9: `collect_files` is deterministic — it sends any two
enumeration orders of the same files to the same list — and its result
is duplicate-free and sorted. -/
theorem collect_files_deterministic_C9 :
    (∀ (l₁ l₂ : List String) (p : String → Bool),
        l₁.Perm l₂ → collect_files l₁ p = collect_files l₂ p) ∧
      ∀ (l : List String) (p : String → Bool),
        (collect_files l p).Nodup ∧ (collect_files l p).Sorted (· ≤ ·) := by
  constructor
  · intro l₁ l₂ p hperm
    have hd : ((l₁.filter p).dedup).Perm ((l₂.filter p).dedup) := (hperm.filter p).dedup
    exact List.eq_of_perm_of_sorted
      (((List.perm_insertionSort _ _).trans hd).trans (List.perm_insertionSort _ _).symm)
      (List.sorted_insertionSort _ _) (List.sorted_insertionSort _ _)
  · intro l p
    exact ⟨((List.perm_insertionSort _ _).nodup_iff).2 (List.nodup_dedup _),
      List.sorted_insertionSort _ _⟩

/-- Witness for C9 on two enumeration orders of the same three files. -/
theorem collect_files_deterministic_C9_witness :
    collect_files ["b", "a", "b"] (fun _ => true)
      = collect_files ["a", "b", "b"] (fun _ => true) :=
  collect_files_deterministic_C9.1 ["b", "a", "b"] ["a", "b", "b"] (fun _ => true) (by decide)

/-- C10: on a line containing the opening marker while outside a block,
the scanner enters the block without inspecting the rest of that line —
the result is exactly that of scanning the later lines from the inside
state — and so a complete block written on a single line emits
nothing. -/
theorem opening_line_not_scanned_C10 :
    (∀ (line : List Char) (rest : List (List Char)),
        containsSub line openMarker = true →
        iter_doc_blocks (line :: rest)
          = iterAux true [] (extract_title_from_opening_tag line) rest) ∧
      iter_doc_blocks ["<doc title=\"X\">hello</doc>".data] = [] := by
  constructor
  · intro line rest h
    simp [iter_doc_blocks, iterAux, h]
  · decide

/-- Witness for C10 on an opening line that itself contains the closing
marker. -/
theorem opening_line_not_scanned_C10_witness :
    iter_doc_blocks ["<doc>stop</doc>\n".data]
      = iterAux true [] (extract_title_from_opening_tag "<doc>stop</doc>\n".data) [] :=
  opening_line_not_scanned_C10.1 "<doc>stop</doc>\n".data [] (by decide)

end CleanData
